/- Verification of the leader-side replication-progress tracker of the raft
   module: the `Progress` follower state machine (`raft/tracker/progress.go`)
   and its `StateType` (`raft/tracker/state.go`), embedded shallowly as pure
   state-passing functions over `Nat` (Go `uint64`) and `Bool` fields.
   Log indices are modelled as unbounded `Nat`: every quantity involved stays
   far below 2^64 on any reachable log, so `uint64` wraparound never fires;
   consequently `Next - 1` is `Nat` truncated subtraction (the Go expression
   only arises under the tracked invariant `Next >= 1`). -/
import Mathlib

namespace RaftTracker

/-- StateType is the state of a tracked follower, a Go `uint64`
(`state.go`); values outside `0..2` are unrecognized. -/
abbrev StateType := Nat

/-- StateProbe indicates a follower whose last index is not known. -/
def StateProbe : StateType := 0

/-- StateReplicate is the steady state in which a follower eagerly receives
log entries to append to its log. -/
def StateReplicate : StateType := 1

/-- StateSnapshot indicates a follower that needs a full snapshot. -/
def StateSnapshot : StateType := 2

/- String constants appearing in the diagnostic rendering
(`progress.go`, `Progress.String` / `ProgressMap.String`, and the
`prstmap` table of `state.go`). -/

def strStateProbe : String := "StateProbe"

def strStateReplicate : String := "StateReplicate"

def strStateSnapshot : String := "StateSnapshot"

def strMatchEq : String := " match="

def strNextEq : String := " next="

def strLearner : String := " learner"

def strPausedTok : String := " paused"

def strPendingSnap : String := " pendingSnap="

def strInactive : String := " inactive"

def strInflightEq : String := " inflight="

def strFull : String := "[full]"

def strColon : String := ": "

def strNL : String := "\n"

def strEmpty : String := ""

/-- Go `prstmap` indexing (`StateType.String` in `state.go`): indexing the
three-element array panics for values outside `0..2`, modelled as `none`. -/
def stateName (st : StateType) : Option String :=
  if st = 0 then some strStateProbe
  else if st = 1 then some strStateReplicate
  else if st = 2 then some strStateSnapshot
  else none

/-- Modelled from the spec: the `Inflights` sliding-window type that
`Progress` owns is code of this repository that is not among the provided
source files (only `progress.go` and `state.go` are under `src/raft/tracker`).
Per the spec (§2, §3, §4.1) the Inflight Window is a bounded ordered record
of outstanding message indices with a configured capacity `C`: `count()` is
the number of outstanding entries, `full()` holds iff `count` equals the
capacity, and `reset()` clears all outstanding entries. -/
structure Inflights where
  capacity : Nat
  buffer : List Nat
deriving DecidableEq

/-- Modelled from the spec (§4.1): `count() -> int`. -/
def Inflights.count (i : Inflights) : Nat := i.buffer.length

/-- Modelled from the spec (§4.1): `full()` is true iff the count of
outstanding entries equals capacity. -/
def Inflights.full (i : Inflights) : Bool := i.count == i.capacity

/-- Modelled from the spec (§4.1): `reset()` clears all outstanding
entries. -/
def Inflights.reset (i : Inflights) : Inflights := { i with buffer := [] }

/-- Progress represents a follower's progress in the view of the leader
(`progress.go`). Field-for-field embedding of the Go struct, in declaration
order; `uint64` fields become `Nat`. -/
structure Progress where
  Match : Nat
  Next : Nat
  State : Nat
  PendingSnapshot : Nat
  RecentActive : Bool
  ProbeSent : Bool
  Inflights : Inflights
  IsLearner : Bool
deriving DecidableEq

/-- The package-local `max` helper of `progress.go` on `uint64`. -/
def maxU (a b : Nat) : Nat := if a > b then a else b

/-- The package-local `min` helper of `progress.go` on `uint64`. -/
def minU (a b : Nat) : Nat := if a > b then b else a

namespace Progress

/-- ResetState moves the Progress into the specified State, resetting
ProbeSent, PendingSnapshot, and Inflights. -/
def ResetState (pr : Progress) (state : StateType) : Progress :=
  { pr with
    ProbeSent := false
    PendingSnapshot := 0
    State := state
    Inflights := pr.Inflights.reset }

/-- ProbeAcked resets ProbeSent. -/
def ProbeAcked (pr : Progress) : Progress := { pr with ProbeSent := false }

/-- BecomeProbe transitions into StateProbe. Next is reset to Match+1 or,
if the original state is StateSnapshot, to the larger of Match+1 and the
pending snapshot index + 1 (the pending snapshot read before the reset). -/
def BecomeProbe (pr : Progress) : Progress :=
  if pr.State = StateSnapshot then
    let pendingSnapshot := pr.PendingSnapshot
    let pr1 := pr.ResetState StateProbe
    { pr1 with Next := maxU (pr1.Match + 1) (pendingSnapshot + 1) }
  else
    let pr1 := pr.ResetState StateProbe
    { pr1 with Next := pr1.Match + 1 }

/-- BecomeReplicate transitions into StateReplicate, resetting Next to
Match+1. -/
def BecomeReplicate (pr : Progress) : Progress :=
  let pr1 := pr.ResetState StateReplicate
  { pr1 with Next := pr1.Match + 1 }

/-- BecomeSnapshot moves the Progress to StateSnapshot with the specified
pending snapshot index. -/
def BecomeSnapshot (pr : Progress) (snapshoti : Nat) : Progress :=
  let pr1 := pr.ResetState StateSnapshot
  { pr1 with PendingSnapshot := snapshoti }

/-- MaybeUpdate is called when an append acknowledgement for index `n`
arrives: if `Match < n` it sets `Match := n`, calls ProbeAcked and will
return true; in all cases `Next := max Next (n+1)`. -/
def MaybeUpdate (pr : Progress) (n : Nat) : Progress × Bool :=
  let step : Progress × Bool :=
    if pr.Match < n then (({ pr with Match := n }).ProbeAcked, true)
    else (pr, false)
  ({ step.1 with Next := maxU step.1.Next (n + 1) }, step.2)

/-- OptimisticUpdate signals that appends up to and including `n` are
in-flight: `Next := n + 1`. -/
def OptimisticUpdate (pr : Progress) (n : Nat) : Progress :=
  { pr with Next := n + 1 }

/-- MaybeDecrTo adjusts the Progress on receipt of an append rejection for
index `rejected` with the follower-supplied `matchHint`. -/
def MaybeDecrTo (pr : Progress) (rejected matchHint : Nat) : Progress × Bool :=
  if pr.State = StateReplicate then
    if rejected ≤ pr.Match then (pr, false)
    else ({ pr with Next := pr.Match + 1 }, true)
  else
    if pr.Next - 1 ≠ rejected then (pr, false)
    else
      ({ pr with
          Next := maxU (minU rejected (matchHint + 1)) 1
          ProbeSent := false }, true)

/-- IsPaused returns whether sending log entries to this node has been
throttled; the Go `default: panic("unexpected state")` branch is modelled
as `none`. -/
def IsPaused (pr : Progress) : Option Bool :=
  if pr.State = StateProbe then some pr.ProbeSent
  else if pr.State = StateReplicate then some pr.Inflights.full
  else if pr.State = StateSnapshot then some true
  else none

end Progress

/-- `Progress.String` of `progress.go`: the one-line diagnostic rendering of
a single Progress. The Go method panics (via `StateType.String` indexing or
`IsPaused`) on an unrecognized state, modelled as `none`. -/
def progressString (pr : Progress) : Option String :=
  match stateName pr.State, pr.IsPaused with
  | some sn, some paused =>
      some (sn ++ strMatchEq ++ toString pr.Match ++ strNextEq ++ toString pr.Next
        ++ (if pr.IsLearner then strLearner else strEmpty)
        ++ (if paused then strPausedTok else strEmpty)
        ++ (if pr.PendingSnapshot > 0 then
              strPendingSnap ++ toString pr.PendingSnapshot
            else strEmpty)
        ++ (if !pr.RecentActive then strInactive else strEmpty)
        ++ (if pr.Inflights.count > 0 then
              strInflightEq ++ toString pr.Inflights.count
                ++ (if pr.Inflights.full then strFull else strEmpty)
            else strEmpty))
  | _, _ => none

/-- The loop body of `ProgressMap.String`: render, in order, one
`<id>: <progress>\n` line for each id of `ids`, looking each id up in the
association list `m` (the Go map). A missing id cannot arise in the Go code
(the ids are the map's own keys) and is modelled as `none`. -/
def renderLines (m : List (Nat × Progress)) : List Nat → Option String
  | [] => some strEmpty
  | id :: rest =>
    match List.lookup id m with
    | none => none
    | some pr =>
      match progressString pr, renderLines m rest with
      | some line, some tail =>
          some (toString id ++ strColon ++ line ++ strNL ++ tail)
      | _, _ => none

/-- `ProgressMap.String` of `progress.go`: collect the keys, sort them
ascending, and print one Progress per line in that order. The Go map in
some iteration order is modelled as an association list. -/
def progressMapString (m : List (Nat × Progress)) : Option String :=
  renderLines m ((m.map Prod.fst).mergeSort Nat.ble)

/-- Follows the spec's words (§4.2 `is_paused`): `Probe` gives
`probe_in_flight`, `Replicate` gives the window's `full()`, `Snapshot` is
always paused. -/
def specPaused (pr : Progress) : Bool :=
  if pr.State = StateProbe then pr.ProbeSent
  else if pr.State = StateReplicate then pr.Inflights.full
  else true

/-- Follows the spec's words (§4.3 Rendering): state name, `match`, `next`,
`learner` flag if set, `paused` if `is_paused()`, `pendingSnap=<n>` if
nonzero, `inactive` if not `recently_active`, `inflight=<count>[full]` if
nonzero. -/
def specLine (pr : Progress) : String :=
  (if pr.State = StateProbe then strStateProbe
   else if pr.State = StateReplicate then strStateReplicate
   else strStateSnapshot)
  ++ strMatchEq ++ toString pr.Match ++ strNextEq ++ toString pr.Next
  ++ (if pr.IsLearner then strLearner else strEmpty)
  ++ (if specPaused pr then strPausedTok else strEmpty)
  ++ (if pr.PendingSnapshot > 0 then
        strPendingSnap ++ toString pr.PendingSnapshot
      else strEmpty)
  ++ (if !pr.RecentActive then strInactive else strEmpty)
  ++ (if pr.Inflights.count > 0 then
        strInflightEq ++ toString pr.Inflights.count
          ++ (if pr.Inflights.full then strFull else strEmpty)
      else strEmpty)

/-- Follows the spec's words (§4.3): the full diagnostic line of one table
entry, `<id>: <line>\n`. -/
def specEntry (kv : Nat × Progress) : String :=
  toString kv.1 ++ strColon ++ specLine kv.2 ++ strNL

/-- Folding a sequence of acknowledged indices through `MaybeUpdate`,
keeping the state. -/
def applyUpdates (pr : Progress) (ns : List Nat) : Progress :=
  ns.foldl (fun q n => (q.MaybeUpdate n).1) pr

/-- The transition sequence of the round-trip scenario:
`BecomeProbe; BecomeReplicate; BecomeSnapshot 5; BecomeProbe`. -/
def roundTrip (pr : Progress) : Progress :=
  (((pr.BecomeProbe).BecomeReplicate).BecomeSnapshot 5).BecomeProbe

/-- A Progress in `StateSnapshot` with `PendingSnapshot = 10` and
`Match = 3`, the concrete instance of the `BecomeProbe` test. -/
def prC4 : Progress :=
  { Match := 3, Next := 1, State := StateSnapshot, PendingSnapshot := 10,
    RecentActive := true, ProbeSent := false,
    Inflights := { capacity := 1, buffer := [] }, IsLearner := false }

/-- A concrete Progress in `StateReplicate`. -/
def prC2 : Progress :=
  { Match := 5, Next := 9, State := StateReplicate, PendingSnapshot := 0,
    RecentActive := true, ProbeSent := false,
    Inflights := { capacity := 2, buffer := [] }, IsLearner := false }

/-- A concrete Progress in `StateProbe` with `Next = 5`. -/
def prC3 : Progress :=
  { Match := 1, Next := 5, State := StateProbe, PendingSnapshot := 0,
    RecentActive := true, ProbeSent := true,
    Inflights := { capacity := 2, buffer := [] }, IsLearner := false }

/-- A concrete Progress satisfying `Next >= Match + 1`. -/
def prC6 : Progress :=
  { Match := 2, Next := 4, State := StateProbe, PendingSnapshot := 0,
    RecentActive := true, ProbeSent := false,
    Inflights := { capacity := 2, buffer := [] }, IsLearner := false }

/-- A concrete Progress in `StateProbe` with `Next = 5`, `Match = 2`. -/
def prC10 : Progress :=
  { Match := 2, Next := 5, State := StateProbe, PendingSnapshot := 0,
    RecentActive := true, ProbeSent := true,
    Inflights := { capacity := 2, buffer := [] }, IsLearner := false }

/-- A concrete Probe entry for the rendering test. -/
def prW1 : Progress :=
  { Match := 1, Next := 2, State := StateProbe, PendingSnapshot := 0,
    RecentActive := true, ProbeSent := true,
    Inflights := { capacity := 1, buffer := [] }, IsLearner := false }

/-- A concrete Replicate learner entry with a full window for the rendering
test. -/
def prW2 : Progress :=
  { Match := 4, Next := 6, State := StateReplicate, PendingSnapshot := 0,
    RecentActive := false, ProbeSent := false,
    Inflights := { capacity := 1, buffer := [5] }, IsLearner := true }

/-- A concrete two-entry Progress Table, keys ascending. -/
def mW : List (Nat × Progress) := [(1, prW1), (2, prW2)]

theorem maxU_eq (a b : Nat) : maxU a b = max a b := by
  unfold maxU; split <;> omega

theorem minU_eq (a b : Nat) : minU a b = min a b := by
  unfold minU; split <;> omega

/-- C1: `MaybeUpdate n` returns true iff `n > Match`; when it does it sets
`Match := n` and clears `ProbeSent`; in every case it sets
`Next := max Next (n+1)`; and when `n ≤ Match` it returns false and leaves
`Match` and `State` unchanged. -/
theorem c1_maybeUpdate_spec (pr : Progress) (n : Nat) :
    ((pr.MaybeUpdate n).2 = true ↔ pr.Match < n) ∧
    (pr.MaybeUpdate n).1.Next = max pr.Next (n + 1) ∧
    (pr.Match < n →
      (pr.MaybeUpdate n).1.Match = n ∧ (pr.MaybeUpdate n).1.ProbeSent = false) ∧
    (n ≤ pr.Match →
      (pr.MaybeUpdate n).2 = false ∧
      (pr.MaybeUpdate n).1.Match = pr.Match ∧
      (pr.MaybeUpdate n).1.State = pr.State) := by
  by_cases h : pr.Match < n <;>
    simp [Progress.MaybeUpdate, Progress.ProbeAcked, maxU_eq, h] <;> omega

/-- C2: in `StateReplicate`, `MaybeDecrTo rejected hint` with
`rejected ≤ Match` returns false and mutates nothing; otherwise it sets
`Next := Match + 1` (ignoring the hint) and returns true. -/
theorem c2_maybeDecrTo_replicate_spec (pr : Progress) (rejected matchHint : Nat)
    (hst : pr.State = StateReplicate) :
    (rejected ≤ pr.Match → pr.MaybeDecrTo rejected matchHint = (pr, false)) ∧
    (pr.Match < rejected →
      pr.MaybeDecrTo rejected matchHint =
        ({ pr with Next := pr.Match + 1 }, true)) := by
  refine ⟨fun h => ?_, fun h => ?_⟩
  · simp [Progress.MaybeDecrTo, hst, h]
  · have h' : ¬ rejected ≤ pr.Match := by omega
    simp [Progress.MaybeDecrTo, hst, h']

/-- C2 witness: the two branches at `rejected = 7` on a concrete Replicate
Progress with `Match = 5`. -/
theorem c2_witness :
    prC2.State = StateReplicate ∧
    ((7 ≤ prC2.Match → prC2.MaybeDecrTo 7 2 = (prC2, false)) ∧
     (prC2.Match < 7 →
       prC2.MaybeDecrTo 7 2 = ({ prC2 with Next := prC2.Match + 1 }, true))) :=
  ⟨rfl, c2_maybeDecrTo_replicate_spec prC2 7 2 rfl⟩

/-- C3: in `StateProbe` or `StateSnapshot`, `MaybeDecrTo rejected hint` with
`rejected ≠ Next - 1` returns false and mutates nothing; otherwise it sets
`Next := max (min rejected (hint+1)) 1` (never below 1), clears `ProbeSent`,
and returns true. -/
theorem c3_maybeDecrTo_probe_snapshot_spec (pr : Progress)
    (rejected matchHint : Nat)
    (hst : pr.State = StateProbe ∨ pr.State = StateSnapshot) :
    (rejected ≠ pr.Next - 1 → pr.MaybeDecrTo rejected matchHint = (pr, false)) ∧
    (rejected = pr.Next - 1 →
      pr.MaybeDecrTo rejected matchHint =
        ({ pr with Next := max (min rejected (matchHint + 1)) 1,
                   ProbeSent := false }, true) ∧
      1 ≤ (pr.MaybeDecrTo rejected matchHint).1.Next) := by
  have hne : ¬ pr.State = StateReplicate := by
    rcases hst with h | h <;>
      simp [h, StateProbe, StateReplicate, StateSnapshot]
  refine ⟨fun h => ?_, fun h => ?_⟩
  · have h' : pr.Next - 1 ≠ rejected := fun hc => h hc.symm
    simp [Progress.MaybeDecrTo, hne, h']
  · have h' : ¬ pr.Next - 1 ≠ rejected := fun hc => hc h.symm
    simp [Progress.MaybeDecrTo, hne, h', maxU_eq, minU_eq]

/-- C3 witness: the two branches at `rejected = 4` on a concrete Probe
Progress with `Next = 5`. -/
theorem c3_witness :
    (prC3.State = StateProbe ∨ prC3.State = StateSnapshot) ∧
    ((4 ≠ prC3.Next - 1 → prC3.MaybeDecrTo 4 2 = (prC3, false)) ∧
     (4 = prC3.Next - 1 →
       prC3.MaybeDecrTo 4 2 =
         ({ prC3 with Next := max (min 4 (2 + 1)) 1, ProbeSent := false },
          true) ∧
       1 ≤ (prC3.MaybeDecrTo 4 2).1.Next)) :=
  ⟨Or.inl rfl, c3_maybeDecrTo_probe_snapshot_spec prC3 4 2 (Or.inl rfl)⟩

/-- C4: `BecomeProbe` always ends in `StateProbe`; from `StateSnapshot` it
sets `Next := max (Match+1) (PendingSnapshot+1)` (reading the pending
snapshot held before the reset), otherwise `Next := Match + 1`; and from
`StateSnapshot` with `PendingSnapshot = 10`, `Match = 3` the resulting
`Next` is 11. -/
theorem c4_becomeProbe_spec (pr : Progress) :
    (pr.BecomeProbe).State = StateProbe ∧
    (pr.State = StateSnapshot →
      (pr.BecomeProbe).Next = max (pr.Match + 1) (pr.PendingSnapshot + 1)) ∧
    (pr.State ≠ StateSnapshot → (pr.BecomeProbe).Next = pr.Match + 1) ∧
    (prC4.BecomeProbe).Next = 11 := by
  by_cases h : pr.State = StateSnapshot <;>
    simp [Progress.BecomeProbe, Progress.ResetState, maxU_eq, h] <;>
    decide

/-- C5: `IsPaused` returns `ProbeSent` in `StateProbe`, the window's
fullness in `StateReplicate`, `true` in `StateSnapshot`, and on any
unrecognized state value it does not return a value (the Go code panics,
modelled as `none`). -/
theorem c5_isPaused_spec (pr : Progress) :
    (pr.State = StateProbe → pr.IsPaused = some pr.ProbeSent) ∧
    (pr.State = StateReplicate → pr.IsPaused = some pr.Inflights.full) ∧
    (pr.State = StateSnapshot → pr.IsPaused = some true) ∧
    (pr.State ≠ StateProbe → pr.State ≠ StateReplicate →
      pr.State ≠ StateSnapshot → pr.IsPaused = none) := by
  refine ⟨fun h => ?_, fun h => ?_, fun h => ?_, fun h1 h2 h3 => ?_⟩
  · simp [Progress.IsPaused, StateProbe, StateReplicate, StateSnapshot, h]
  · simp [Progress.IsPaused, StateProbe, StateReplicate, StateSnapshot, h]
  · simp [Progress.IsPaused, StateProbe, StateReplicate, StateSnapshot, h]
  · rw [Progress.IsPaused, if_neg h1, if_neg h2, if_neg h3]

/-- One `MaybeUpdate` step never decreases `Match`. -/
theorem maybeUpdate_match_mono (pr : Progress) (n : Nat) :
    pr.Match ≤ (pr.MaybeUpdate n).1.Match := by
  by_cases h : pr.Match < n <;>
    simp [Progress.MaybeUpdate, Progress.ProbeAcked, h] <;> omega

/-- One `MaybeUpdate` step preserves `Next ≥ Match + 1`. -/
theorem maybeUpdate_preserves_inv (pr : Progress) (n : Nat)
    (h : pr.Match + 1 ≤ pr.Next) :
    (pr.MaybeUpdate n).1.Match + 1 ≤ (pr.MaybeUpdate n).1.Next := by
  by_cases hlt : pr.Match < n <;>
    simp [Progress.MaybeUpdate, Progress.ProbeAcked, maxU_eq, hlt] <;> omega

theorem applyUpdates_nil (pr : Progress) : applyUpdates pr [] = pr := rfl

theorem applyUpdates_cons (pr : Progress) (n : Nat) (ns : List Nat) :
    applyUpdates pr (n :: ns) = applyUpdates (pr.MaybeUpdate n).1 ns := rfl

theorem applyUpdates_append (pr : Progress) (ns₁ ns₂ : List Nat) :
    applyUpdates pr (ns₁ ++ ns₂) = applyUpdates (applyUpdates pr ns₁) ns₂ := by
  simp [applyUpdates, List.foldl_append]

theorem applyUpdates_match_mono :
    ∀ (ns : List Nat) (pr : Progress), pr.Match ≤ (applyUpdates pr ns).Match
  | [], _ => le_refl _
  | n :: ns, pr =>
      le_trans (maybeUpdate_match_mono pr n) (applyUpdates_match_mono ns _)

theorem applyUpdates_inv :
    ∀ (ns : List Nat) (pr : Progress), pr.Match + 1 ≤ pr.Next →
      (applyUpdates pr ns).Match + 1 ≤ (applyUpdates pr ns).Next
  | [], _, h => h
  | n :: ns, pr, h =>
      applyUpdates_inv ns _ (maybeUpdate_preserves_inv pr n h)

/-- C6: from any Progress with `Next ≥ Match + 1`, over any sequence of
`MaybeUpdate` calls, `Match` never decreases between any two points of the
sequence and `Next ≥ Match + 1` holds after every call (i.e. after every
prefix). -/
theorem c6_maybeUpdate_invariant (pr : Progress)
    (h : pr.Match + 1 ≤ pr.Next) (ns₁ ns₂ : List Nat) :
    (applyUpdates pr ns₁).Match ≤ (applyUpdates pr (ns₁ ++ ns₂)).Match ∧
    pr.Match ≤ (applyUpdates pr ns₁).Match ∧
    (applyUpdates pr ns₁).Match + 1 ≤ (applyUpdates pr ns₁).Next := by
  rw [applyUpdates_append]
  exact ⟨applyUpdates_match_mono ns₂ _, applyUpdates_match_mono ns₁ pr,
    applyUpdates_inv ns₁ pr h⟩

/-- C6 witness: the invariant along the concrete sequence `[3]` then
`[1, 5]` from `Match = 2`, `Next = 4`. -/
theorem c6_witness :
    prC6.Match + 1 ≤ prC6.Next ∧
    ((applyUpdates prC6 [3]).Match ≤
        (applyUpdates prC6 ([3] ++ [1, 5])).Match ∧
      prC6.Match ≤ (applyUpdates prC6 [3]).Match ∧
      (applyUpdates prC6 [3]).Match + 1 ≤ (applyUpdates prC6 [3]).Next) :=
  ⟨by decide, c6_maybeUpdate_invariant prC6 (by decide) [3] [1, 5]⟩

/-- C7: `BecomeReplicate` from any state leaves `State = StateReplicate`,
`Next = Match + 1`, `ProbeSent = false`, `PendingSnapshot = 0` and an empty
Inflight Window; with `Match = 7` the resulting `Next` is 8. -/
theorem c7_becomeReplicate_spec (pr : Progress) :
    (pr.BecomeReplicate).State = StateReplicate ∧
    (pr.BecomeReplicate).Next = pr.Match + 1 ∧
    (pr.BecomeReplicate).ProbeSent = false ∧
    (pr.BecomeReplicate).PendingSnapshot = 0 ∧
    (pr.BecomeReplicate).Inflights.count = 0 ∧
    (pr.Match = 7 → (pr.BecomeReplicate).Next = 8) := by
  simp [Progress.BecomeReplicate, Progress.ResetState, Inflights.reset,
    Inflights.count]

/-- C8: the sequence `BecomeProbe; BecomeReplicate; BecomeSnapshot 5;
BecomeProbe` from any starting Progress ends in `StateProbe` with
`PendingSnapshot = 0` and `Next ≥ Match + 1`. -/
theorem c8_roundTrip_spec (pr : Progress) :
    (roundTrip pr).State = StateProbe ∧
    (roundTrip pr).PendingSnapshot = 0 ∧
    (roundTrip pr).Match + 1 ≤ (roundTrip pr).Next := by
  by_cases h : pr.State = StateSnapshot <;>
    simp [roundTrip, Progress.BecomeProbe, Progress.BecomeReplicate,
      Progress.BecomeSnapshot, Progress.ResetState, Inflights.reset,
      StateProbe, StateReplicate, StateSnapshot, maxU_eq, h] <;>
    omega

/-- C10: for any Progress with `Next ≥ 1` and `Next ≥ Match + 1`,
`MaybeDecrTo` never increases `Next`, in every state and on both return
values. -/
theorem c10_maybeDecrTo_next_nonincreasing (pr : Progress)
    (rejected matchHint : Nat)
    (h1 : 1 ≤ pr.Next) (h2 : pr.Match + 1 ≤ pr.Next) :
    (pr.MaybeDecrTo rejected matchHint).1.Next ≤ pr.Next := by
  by_cases hst : pr.State = StateReplicate
  · by_cases hr : rejected ≤ pr.Match <;>
      simp [Progress.MaybeDecrTo, hst, hr] <;> omega
  · by_cases hr : pr.Next - 1 ≠ rejected <;>
      simp [Progress.MaybeDecrTo, hst, hr, maxU_eq, minU_eq] <;> omega

/-- Association-list lookup is stable under permutation when the keys are
distinct. -/
theorem lookup_perm {m m' : List (Nat × Progress)} (h : m.Perm m') (a : Nat) :
    (m.map Prod.fst).Nodup → List.lookup a m = List.lookup a m' := by
  induction h with
  | nil => intro _; rfl
  | cons x hp ih =>
      intro hn
      obtain ⟨k, v⟩ := x
      rw [List.map_cons, List.nodup_cons] at hn
      by_cases hak : a = k
      · subst hak; simp [List.lookup]
      · have hb : (a == k) = false := by simp [hak]
        simp [List.lookup, hb, ih hn.2]
  | swap x y l =>
      intro hn
      obtain ⟨k₁, v₁⟩ := x
      obtain ⟨k₂, v₂⟩ := y
      rw [List.map_cons, List.map_cons, List.nodup_cons] at hn
      have hkk : k₂ ≠ k₁ := by
        intro he; exact hn.1 (by simp [he])
      by_cases h2 : a = k₂
      · have hb1 : (a == k₂) = true := by simp [h2]
        have hb2 : (a == k₁) = false := by
          simp only [beq_eq_false_iff_ne]; intro he; exact hkk (h2 ▸ he)
        simp [List.lookup, hb1, hb2]
      · by_cases h1 : a = k₁
        · have hb1 : (a == k₂) = false := by simp [h2]
          have hb2 : (a == k₁) = true := by simp [h1]
          simp [List.lookup, hb1, hb2]
        · have hb1 : (a == k₂) = false := by simp [h2]
          have hb2 : (a == k₁) = false := by simp [h1]
          simp [List.lookup, hb1, hb2]
  | trans hp₁ hp₂ ih₁ ih₂ =>
      intro hn
      have hn₂ := ((hp₁.map Prod.fst).nodup_iff).mp hn
      exact (ih₁ hn).trans (ih₂ hn₂)

/-- `renderLines` depends on the table only through lookups. -/
theorem renderLines_congr {m m' : List (Nat × Progress)}
    (hl : ∀ a, List.lookup a m = List.lookup a m') (ids : List Nat) :
    renderLines m ids = renderLines m' ids := by
  induction ids with
  | nil => rfl
  | cons id rest ih => simp only [renderLines, hl id, ih]

/-- A head entry whose key none of the rendered ids mention does not change
the rendering. -/
theorem renderLines_cons_of_not_mem (kv : Nat × Progress)
    (rest : List (Nat × Progress)) (ids : List Nat) (h : kv.1 ∉ ids) :
    renderLines (kv :: rest) ids = renderLines rest ids := by
  induction ids with
  | nil => rfl
  | cons id t ih =>
      have h1 : kv.1 ≠ id := by intro he; exact h (by simp [he])
      have h2 : kv.1 ∉ t := by intro hm; exact h (by simp [hm])
      obtain ⟨k, v⟩ := kv
      have hb : (id == k) = false := by
        simp only [beq_eq_false_iff_ne]; intro he; exact h1 he.symm
      simp only [renderLines, List.lookup, hb, ih h2]

/-- On a recognized state the source rendering of one Progress succeeds and
produces exactly the line the spec describes. -/
theorem progressString_valid (pr : Progress) (h : pr.State < 3) :
    progressString pr = some (specLine pr) := by
  have h3 : pr.State = 0 ∨ pr.State = 1 ∨ pr.State = 2 := by omega
  rcases h3 with h0 | h0 | h0 <;>
    simp [progressString, stateName, Progress.IsPaused, specLine, specPaused,
      StateProbe, StateReplicate, StateSnapshot, h0]

theorem string_join_cons (s : String) (l : List String) :
    String.join (s :: l) = s ++ String.join l := by
  apply String.ext
  simp

/-- Rendering a table at its own key list, in list order, produces one
spec-described entry line per element. -/
theorem renderLines_self :
    ∀ (m : List (Nat × Progress)), (m.map Prod.fst).Nodup →
      (∀ kv ∈ m, kv.2.State < 3) →
      renderLines m (m.map Prod.fst) = some (String.join (m.map specEntry))
  | [], _, _ => rfl
  | kv :: rest, hn, hv => by
      obtain ⟨k, v⟩ := kv
      rw [List.map_cons, List.nodup_cons] at hn
      have hvhead : v.State < 3 := hv (k, v) (List.mem_cons_self _ _)
      have hvtail : ∀ kv ∈ rest, kv.2.State < 3 := fun kv hm =>
        hv kv (List.mem_cons_of_mem _ hm)
      have h1 : List.lookup k ((k, v) :: rest) = some v := by
        simp [List.lookup]
      have h2 : renderLines ((k, v) :: rest) (rest.map Prod.fst) =
          some (String.join (rest.map specEntry)) := by
        rw [renderLines_cons_of_not_mem _ _ _ hn.1]
        exact renderLines_self rest hn.2 hvtail
      simp only [List.map_cons, renderLines, h1,
        progressString_valid v hvhead, h2, string_join_cons, specEntry]

theorem ble_trans (a b c : Nat) :
    Nat.ble a b = true → Nat.ble b c = true → Nat.ble a c = true := by
  intro h1 h2
  rw [Nat.ble_eq] at h1 h2 ⊢
  omega

theorem ble_total (a b : Nat) : (Nat.ble a b || Nat.ble b a) = true := by
  rcases Nat.le_total a b with h | h <;>
    simp [Bool.or_eq_true, Nat.ble_eq, h]

/-- C9: on a Progress Table with strictly ascending keys and recognized
states, the diagnostic rendering is insensitive to the table's iteration
order (every permutation renders identically), and it produces exactly one
`<id>: <line>\n` entry per follower in ascending id order, each line as the
spec describes it (state name, match and next indices, then the `learner`,
`paused`, `pendingSnap=`, `inactive` and `inflight=[full]` tokens exactly
under their respective conditions, per `specLine`/`specEntry`). -/
theorem c9_progressMapString_spec (m : List (Nat × Progress))
    (hsorted : List.Pairwise (fun a b => a.1 < b.1) m)
    (hvalid : ∀ kv ∈ m, kv.2.State < 3) :
    (∀ m', m.Perm m' → progressMapString m' = progressMapString m) ∧
    progressMapString m = some (String.join (m.map specEntry)) := by
  have hkeys_lt : (m.map Prod.fst).Pairwise (fun a b => a < b) :=
    List.Pairwise.map Prod.fst (fun a b h => h) hsorted
  have hnodup : (m.map Prod.fst).Nodup :=
    hkeys_lt.imp (fun h => Nat.ne_of_lt h)
  have hble : (m.map Prod.fst).Pairwise (fun a b => Nat.ble a b = true) :=
    hkeys_lt.imp (fun h => by rw [Nat.ble_eq]; omega)
  have hcontent : progressMapString m = some (String.join (m.map specEntry)) := by
    rw [progressMapString, List.mergeSort_of_sorted hble]
    exact renderLines_self m hnodup hvalid
  refine ⟨fun m' hp => ?_, hcontent⟩
  have hids_sorted :
      ((m'.map Prod.fst).mergeSort Nat.ble).Pairwise
        (fun a b => Nat.ble a b = true) :=
    List.sorted_mergeSort ble_trans ble_total _
  have hperm_ids : ((m'.map Prod.fst).mergeSort Nat.ble).Perm (m.map Prod.fst) :=
    (List.mergeSort_perm _ _).trans (hp.symm.map Prod.fst)
  have hs1 : List.Sorted (fun a b : Nat => a ≤ b)
      ((m'.map Prod.fst).mergeSort Nat.ble) :=
    hids_sorted.imp (fun h => by rw [Nat.ble_eq] at h; exact h)
  have hs2 : List.Sorted (fun a b : Nat => a ≤ b) (m.map Prod.fst) :=
    hkeys_lt.imp (fun h => Nat.le_of_lt h)
  have hids_eq : (m'.map Prod.fst).mergeSort Nat.ble = m.map Prod.fst :=
    List.eq_of_perm_of_sorted hperm_ids hs1 hs2
  have hn' : (m'.map Prod.fst).Nodup := ((hp.map Prod.fst).nodup_iff).mp hnodup
  have hl : ∀ a, List.lookup a m' = List.lookup a m := fun a =>
    lookup_perm hp.symm a hn'
  calc progressMapString m'
      = renderLines m' (m.map Prod.fst) := by rw [progressMapString, hids_eq]
    _ = renderLines m (m.map Prod.fst) := renderLines_congr hl _
    _ = progressMapString m := by
        rw [progressMapString, List.mergeSort_of_sorted hble]

/-- C9 witness: the two-entry table `mW` rendered order-insensitively into
its two spec-described lines. -/
theorem c9_witness :
    List.Pairwise (fun a b => a.1 < b.1) mW ∧
    (∀ kv ∈ mW, kv.2.State < 3) ∧
    ((∀ m', mW.Perm m' → progressMapString m' = progressMapString mW) ∧
     progressMapString mW = some (String.join (mW.map specEntry))) :=
  ⟨by decide, by decide, c9_progressMapString_spec mW (by decide) (by decide)⟩

/-- C10 witness: a genuine Probe rejection at `rejected = 4` from
`Next = 5` does not increase `Next`. -/
theorem c10_witness :
    1 ≤ prC10.Next ∧ prC10.Match + 1 ≤ prC10.Next ∧
    (prC10.MaybeDecrTo 4 0).1.Next ≤ prC10.Next :=
  ⟨by decide, by decide,
    c10_maybeDecrTo_next_nonincreasing prC10 4 0 (by decide) (by decide)⟩

end RaftTracker
